import Mathlib

/-
  Verification development for the ai-agent repository (frontend sources under
  src/frontend, plus the quotation pipeline the backend must implement, which
  is modelled from the specification where the backend code is absent).
-/

namespace AIAgent

/- ------------------------------------------------------------------
   Data model, from src/frontend/components/ChatInterface.tsx lines 11-26.
   ------------------------------------------------------------------ -/

/-- Message roles, from the `Message` interface (role: 'user' | 'assistant'). -/
inductive Role
  | user
  | assistant
deriving DecidableEq, BEq, Repr

/-- Attachment kind, from the `Attachment` interface (type: 'image' | 'file'). -/
inductive AttType
  | image
  | file
deriving DecidableEq, BEq, Repr

/-- Attachment metadata stored on a message (type, url, name), from the
`Message.attachments` field. -/
structure AttachmentMeta where
  type : AttType
  url : String
  name : String
deriving DecidableEq, BEq, Repr

/-- A chat message: role, content, and optional attachment metadata
(the empty list models an absent `attachments` field). -/
structure Message where
  role : Role
  content : String
  attachments : List AttachmentMeta
deriving DecidableEq, BEq, Repr

/-- A pending attachment in the composer, from the `Attachment` interface:
type, the selected file (its bytes abstracted as a string), object url, name. -/
structure Attachment where
  type : AttType
  fileData : String
  url : String
  name : String
deriving DecidableEq, BEq, Repr

/- ------------------------------------------------------------------
   Language detection, from src/frontend/utils/language.ts lines 5-24.
   ------------------------------------------------------------------ -/

/-- Language tags returned by detectLanguage ('ar' | 'en'). -/
inductive Lang
  | ar
  | en
deriving DecidableEq, BEq, Repr

/-- Test for a character in the Arabic Unicode block, from the regex
/[؀-ۿ]/ in language.ts. -/
def isArabicChar (c : Char) : Bool :=
  decide (0x600 ≤ c.toNat) && decide (c.toNat ≤ 0x6FF)

/-- Number of Arabic-block characters, from
`(text.match(/[؀-ۿ]/g) || []).length` (language.ts line 11). -/
def arabicCount (text : String) : Nat :=
  (text.toList.filter isArabicChar).length

/-- Presence of an Arabic-block character, from `arabicPattern.test(text)`
(language.ts line 8). -/
def hasArabic (text : String) : Bool :=
  text.toList.any isArabicChar

/-- detectLanguage, from language.ts lines 5-20: 'ar' when an Arabic character
is present and Arabic characters exceed 30% of the text length, else 'en'.
The comparison `arabicCount > text.length * 0.3` is modelled exactly by
cross-multiplication (10 * count > 3 * length); string length counts
characters. -/
def detectLanguage (text : String) : Lang :=
  if hasArabic text = true ∧ 10 * arabicCount text > 3 * text.length then
    Lang.ar
  else
    Lang.en

/-- isRTL, from language.ts lines 22-24. -/
def isRTL (text : String) : Bool :=
  decide (detectLanguage text = Lang.ar)

/- ------------------------------------------------------------------
   Theorems for claim C8.
   ------------------------------------------------------------------ -/

lemma isArabicChar_iff (c : Char) :
    isArabicChar c = true ↔ (0x600 ≤ c.toNat ∧ c.toNat ≤ 0x6FF) := by
  simp [isArabicChar]

lemma rat_threshold_iff (count len : Nat) :
    ((count : ℚ) > 3 / 10 * (len : ℚ)) ↔ 10 * count > 3 * len := by
  rw [gt_iff_lt, div_mul_eq_mul_div, div_lt_iff₀ (by norm_num : (0 : ℚ) < 10)]
  constructor
  · intro h
    have h2 : (3 * len : ℚ) < (count * 10 : ℚ) := by push_cast at h; linarith
    have h3 : (3 * len : ℕ) < (count * 10 : ℕ) := by exact_mod_cast h2
    omega
  · intro h
    have h3 : (3 * len : ℕ) < (10 * count : ℕ) := h
    have h2 : ((3 * len : ℕ) : ℚ) < ((10 * count : ℕ) : ℚ) := by exact_mod_cast h3
    push_cast at h2
    linarith

/-- C8: detectLanguage returns 'ar' iff the text contains a character in
U+0600-U+06FF and the count of such characters strictly exceeds 0.3 times the
text length; isRTL holds iff detectLanguage returns 'ar'; text whose
Arabic-character share is at most 30% is classified 'en'. -/
theorem c8_detectLanguage (text : String) :
    (detectLanguage text = Lang.ar ↔
      ((∃ c ∈ text.toList, 0x600 ≤ c.toNat ∧ c.toNat ≤ 0x6FF) ∧
        (arabicCount text : ℚ) > 3 / 10 * (text.length : ℚ))) ∧
    (isRTL text = true ↔ detectLanguage text = Lang.ar) ∧
    ((arabicCount text : ℚ) ≤ 3 / 10 * (text.length : ℚ) →
      detectLanguage text = Lang.en) := by
  have hA : hasArabic text = true ↔
      ∃ c ∈ text.toList, 0x600 ≤ c.toNat ∧ c.toNat ≤ 0x6FF := by
    simp [hasArabic, List.any_eq_true, isArabicChar_iff]
  refine ⟨?_, ?_, ?_⟩
  · rw [rat_threshold_iff]
    unfold detectLanguage
    split
    · rename_i h
      simp only [true_iff]
      exact ⟨hA.mp h.1, h.2⟩
    · rename_i h
      constructor
      · intro hcontra
        exact absurd hcontra (by simp)
      · intro hgoal
        exact absurd ⟨hA.mpr hgoal.1, hgoal.2⟩ h
  · simp [isRTL]
  · intro hle
    unfold detectLanguage
    split
    · rename_i h
      exfalso
      have := (rat_threshold_iff (arabicCount text) text.length).mpr h.2
      linarith
    · rfl

/-- C8 witness: a concrete English text is classified 'en'. -/
theorem c8_witness : detectLanguage "hello" = Lang.en := by
  have hcount : arabicCount "hello" = 0 := rfl
  have hlen : ("hello" : String).length = 5 := rfl
  exact (c8_detectLanguage "hello").2.2 (by rw [hcount, hlen]; norm_num)

/- ------------------------------------------------------------------
   Request construction in sendMessage,
   src/frontend/components/ChatInterface.tsx lines 103-183.
   ------------------------------------------------------------------ -/

/-- An entry of the history array sent to the backend: only role and content
(ChatInterface.tsx lines 124-129). -/
structure HistoryEntry where
  role : Role
  content : String
deriving DecidableEq, BEq, Repr

/-- Coercion `String(msg.content || "")` from ChatInterface.tsx line 128:
on a string value, an empty string is falsy and is replaced by the empty
string; otherwise the string passes through. -/
def coerceContent (s : String) : String :=
  if s = "" then "" else s

/-- historyForRequest, from ChatInterface.tsx lines 124-129: keep only
user/assistant messages, reduce each to a role/content pair with the
content coerced to a string. -/
def historyForRequest (msgs : List Message) : List HistoryEntry :=
  (msgs.filter (fun m => m.role == Role.user || m.role == Role.assistant)).map
    (fun m => ⟨m.role, coerceContent m.content⟩)

/-- The request issued by one sendMessage call: either the multipart
non-streaming POST of lines 140-159, or the streaming POST of lines 171-183. -/
inductive Request
  | multipartChat (message : String) (history : List HistoryEntry)
      (sessionId : Option String) (quotationId : Option String)
      (files : List Attachment)
  | streamChat (message : String) (history : List HistoryEntry)
      (sessionId : Option String) (quotationId : Option String)
deriving DecidableEq, BEq, Repr

/-- Endpoint path of a request: `/api/v1/chat` for the multipart branch
(line 154), `/api/v1/chat/stream` for the streaming branch (line 171). -/
def endpoint : Request → String
  | .multipartChat _ _ _ _ _ => "/api/v1/chat"
  | .streamChat _ _ _ _ => "/api/v1/chat/stream"

/-- The history field carried by a request. -/
def historyOf : Request → List HistoryEntry
  | .multipartChat _ h _ _ _ => h
  | .streamChat _ h _ _ => h

/-- ChatInterface component state relevant to sendMessage:
messages, input, attachments, sessionId, quotationId
(ChatInterface.tsx lines 29-36). -/
structure ChatState where
  messages : List Message
  input : String
  attachments : List Attachment
  sessionId : Option String
  quotationId : Option String
deriving DecidableEq, BEq, Repr

/-- Model of JavaScript String.prototype.trim, used by `input.trim()`:
strip whitespace from both ends. -/
def jsTrim (s : String) : String :=
  String.mk (((s.data.dropWhile Char.isWhitespace).reverse.dropWhile
    Char.isWhitespace).reverse)

/-- The synchronous head of sendMessage (ChatInterface.tsx lines 103-183):
the empty-input guard of line 104, the user-message append and input/attachment
reset of lines 106-132, and the choice between the multipart request
(attachments present, lines 139-159) and the streaming request (lines 171-183).
Returns the request issued (none when the guard returns early) and the
component state after the synchronous updates. -/
def sendMessageStart (st : ChatState) : Option Request × ChatState :=
  if jsTrim st.input = "" ∧ st.attachments = [] then
    (none, st)
  else
    let userMsg : Message :=
      ⟨Role.user, st.input, st.attachments.map (fun a => ⟨a.type, a.url, a.name⟩)⟩
    let hist := historyForRequest st.messages
    let req : Request :=
      if st.attachments.length > 0 then
        Request.multipartChat st.input hist st.sessionId st.quotationId
          st.attachments
      else
        Request.streamChat st.input hist st.sessionId st.quotationId
    (some req,
      { st with
          input := ""
          attachments := []
          messages := st.messages ++ [userMsg] })

/-- Disabled condition of the Send button, ChatInterface.tsx line 365:
`isLoading || (!input.trim() && attachments.length === 0)`. -/
def sendButtonDisabled (isLoading : Bool) (input : String)
    (attachments : List Attachment) : Bool :=
  isLoading || (decide (jsTrim input = "") && decide (attachments.length = 0))

/- ------------------------------------------------------------------
   Theorems for claims C4, C6, C10.
   ------------------------------------------------------------------ -/

lemma roleFilter_true (m : Message) :
    (m.role == Role.user || m.role == Role.assistant) = true := by
  cases m.role <;> rfl

lemma coerceContent_eq (s : String) : coerceContent s = s := by
  unfold coerceContent
  split
  · rename_i h
    exact h.symm
  · rfl

lemma historyForRequest_eq (msgs : List Message) :
    historyForRequest msgs = msgs.map (fun m => HistoryEntry.mk m.role m.content) := by
  unfold historyForRequest
  rw [List.filter_eq_self.mpr (fun m _ => roleFilter_true m)]
  apply List.map_congr_left
  intro m _
  rw [coerceContent_eq]

/-- C4: if at least one attachment is present, the turn is sent as the single
non-streaming multipart request to `/api/v1/chat`; with no attachments (and a
non-blank input passing the guard) it is sent to the streaming endpoint
`/api/v1/chat/stream`. -/
theorem c4_request_mode (st : ChatState) :
    (st.attachments ≠ [] →
      (sendMessageStart st).1 =
        some (Request.multipartChat st.input (historyForRequest st.messages)
          st.sessionId st.quotationId st.attachments) ∧
      endpoint (Request.multipartChat st.input (historyForRequest st.messages)
          st.sessionId st.quotationId st.attachments) = "/api/v1/chat") ∧
    (st.attachments = [] → jsTrim st.input ≠ "" →
      (sendMessageStart st).1 =
        some (Request.streamChat st.input (historyForRequest st.messages)
          st.sessionId st.quotationId) ∧
      endpoint (Request.streamChat st.input (historyForRequest st.messages)
          st.sessionId st.quotationId) = "/api/v1/chat/stream") := by
  constructor
  · intro hatt
    have hlen : st.attachments.length > 0 := by
      cases h : st.attachments with
      | nil => exact absurd h hatt
      | cons a l => simp [h]
    constructor
    · unfold sendMessageStart
      rw [if_neg (by intro h; exact hatt h.2)]
      simp only [if_pos hlen]
    · rfl
  · intro hatt hinput
    constructor
    · unfold sendMessageStart
      rw [if_neg (by intro h; exact hinput h.1)]
      have hlen : ¬ st.attachments.length > 0 := by simp [hatt]
      simp only [if_neg hlen]
    · rfl

/-- C4 witness: concrete states exercising both branches. -/
theorem c4_witness :
    (sendMessageStart
        ⟨[], "hi", [⟨AttType.image, "bytes", "blob:u", "plan.png"⟩], none, none⟩).1 =
      some (Request.multipartChat "hi" (historyForRequest []) none none
        [⟨AttType.image, "bytes", "blob:u", "plan.png"⟩]) ∧
    (sendMessageStart ⟨[], "hi", [], none, none⟩).1 =
      some (Request.streamChat "hi" (historyForRequest []) none none) :=
  ⟨((c4_request_mode
      ⟨[], "hi", [⟨AttType.image, "bytes", "blob:u", "plan.png"⟩], none, none⟩).1
      (by simp)).1,
   ((c4_request_mode ⟨[], "hi", [], none, none⟩).2 rfl (by decide)).1⟩

/-- C6: every request issued by sendMessage carries as history exactly the
prior messages, each reduced to a role/content pair; the HistoryEntry type
carries no attachment field, so attachment data never appears in the
transmitted history. -/
theorem c6_history_exact (st : ChatState) (req : Request) (st2 : ChatState)
    (h : sendMessageStart st = (some req, st2)) :
    historyOf req = st.messages.map (fun m => HistoryEntry.mk m.role m.content) := by
  unfold sendMessageStart at h
  split at h
  · exact absurd (congrArg Prod.fst h) (by simp)
  · split at h
    · have : req = Request.multipartChat st.input (historyForRequest st.messages)
          st.sessionId st.quotationId st.attachments := by
        have := congrArg Prod.fst h
        simp at this
        exact this.symm
      rw [this]
      simpa [historyOf] using historyForRequest_eq st.messages
    · have : req = Request.streamChat st.input (historyForRequest st.messages)
          st.sessionId st.quotationId := by
        have := congrArg Prod.fst h
        simp at this
        exact this.symm
      rw [this]
      simpa [historyOf] using historyForRequest_eq st.messages

/-- C6 witness: a concrete send with one prior message. -/
theorem c6_witness :
    historyOf (Request.streamChat "hi"
        (historyForRequest [⟨Role.assistant, "Hello", []⟩]) none none) =
      [HistoryEntry.mk Role.assistant "Hello"] :=
  c6_history_exact ⟨[⟨Role.assistant, "Hello", []⟩], "hi", [], none, none⟩
    (Request.streamChat "hi"
      (historyForRequest [⟨Role.assistant, "Hello", []⟩]) none none)
    ⟨[⟨Role.assistant, "Hello", []⟩, ⟨Role.user, "hi", []⟩], "", [], none, none⟩
    (by decide)

/-- C10: on empty or whitespace-only input with no attachments, sendMessage
returns immediately with no request and the state unchanged, and the Send
button is disabled under the same condition. -/
theorem c10_empty_guard (st : ChatState)
    (hin : jsTrim st.input = "") (hatt : st.attachments = []) :
    sendMessageStart st = (none, st) ∧
    (∀ l : Bool, sendButtonDisabled l st.input st.attachments = true) := by
  constructor
  · unfold sendMessageStart
    rw [if_pos ⟨hin, hatt⟩]
  · intro l
    unfold sendButtonDisabled
    rw [hatt]
    simp [hin]

/-- C10 witness: whitespace-only input with no attachments is a no-op and the
button is disabled. -/
theorem c10_witness :
    sendMessageStart ⟨[], "  ", [], none, none⟩ =
      (none, ⟨[], "  ", [], none, none⟩) ∧
    sendButtonDisabled false "  " [] = true :=
  ⟨(c10_empty_guard ⟨[], "  ", [], none, none⟩ (by decide) rfl).1,
   (c10_empty_guard ⟨[], "  ", [], none, none⟩ (by decide) rfl).2 false⟩

/- ------------------------------------------------------------------
   Streaming read loop of sendMessage,
   src/frontend/components/ChatInterface.tsx lines 191-244.
   ------------------------------------------------------------------ -/

/-- Outcome of parsing one `data: ` SSE line (JSON.parse at line 214 and the
type dispatch at lines 216-235): a content fragment, a done event with an
optional quotation id, an error event, or a JSON parse failure (handled by the
inner catch at line 238). -/
inductive SSEvent
  | content (s : String)
  | done (quotationId : Option String)
  | error (message : String)
  | parseFailure
deriving DecidableEq, BEq, Repr

/-- State threaded through the streaming read loop: the messages list, the
accumulated `fullResponse` (line 200), and the quotationId state. -/
structure StreamState where
  messages : List Message
  fullResponse : String
  quotationId : Option String
deriving DecidableEq, BEq, Repr

/-- The guarded functional update of lines 219-229: copy the list and replace
the message at the recorded index with the accumulated content, only when the
index is in range and the message there has the assistant role; the spread
`{...updated[idx], content: fullResponse}` keeps role and attachments. -/
def updateAssistant (prev : List Message) (idx : Int) (full : String) :
    List Message :=
  match prev.get? idx.toNat with
  | some m =>
      if 0 ≤ idx ∧ m.role = Role.assistant then
        prev.set idx.toNat ⟨m.role, full, m.attachments⟩
      else
        prev
  | none => prev

/-- Processing of one parsed SSE event, lines 216-240. A content event
appends to fullResponse and updates the assistant placeholder; a done event
stores a truthy quotation id; an error event raises inside the same try whose
catch (line 238) only logs, so the state is unchanged and the loop continues;
a parse failure is likewise only logged. -/
def processEvent (idx : Int) (st : StreamState) : SSEvent → StreamState
  | .content s =>
      let full := st.fullResponse ++ s
      { st with
          fullResponse := full
          messages := updateAssistant st.messages idx full }
  | .done qid =>
      match qid with
      | some q => { st with quotationId := some q }
      | none => st
  | .error _ => st
  | .parseFailure => st

/-- The streaming read loop over the parsed events of a dispatch, in arrival
order (lines 203-243). -/
def processEvents (idx : Int) (st : StreamState) (events : List SSEvent) :
    StreamState :=
  events.foldl (processEvent idx) st

/-- Dispatch start, lines 192-195: append an empty assistant placeholder and
record its index in assistantMessageRef. -/
def startStreaming (msgs : List Message) : List Message × Int :=
  (msgs ++ [⟨Role.assistant, "", []⟩], Int.ofNat msgs.length)

/-- Concatenation, in arrival order, of the content fields of the
content events of a dispatch. -/
def concatContents : List SSEvent → String
  | [] => ""
  | .content s :: rest => s ++ concatContents rest
  | .done _ :: rest => concatContents rest
  | .error _ :: rest => concatContents rest
  | .parseFailure :: rest => concatContents rest

/- ------------------------------------------------------------------
   Theorems for claims C2, C3, C9.
   ------------------------------------------------------------------ -/

lemma str_empty_append (s : String) : "" ++ s = s := by
  cases s
  rfl

lemma str_append_empty (s : String) : s ++ "" = s := by
  cases s with
  | mk data =>
    show String.mk (data ++ []) = String.mk data
    rw [List.append_nil]

lemma str_append_assoc (a b c : String) : a ++ b ++ c = a ++ (b ++ c) := by
  cases a
  cases b
  cases c
  show String.mk (_ ++ _ ++ _) = String.mk (_ ++ (_ ++ _))
  rw [List.append_assoc]

lemma processEvents_inv (events : List SSEvent) (st : StreamState) (idx : Int)
    (hpos : 0 ≤ idx)
    (hmsg : st.messages.get? idx.toNat =
      some ⟨Role.assistant, st.fullResponse, []⟩) :
    (processEvents idx st events).messages.get? idx.toNat =
      some ⟨Role.assistant, st.fullResponse ++ concatContents events, []⟩ := by
  induction events generalizing st with
  | nil =>
    simpa [processEvents, concatContents, str_append_empty] using hmsg
  | cons e rest ih =>
    have hstep : processEvents idx st (e :: rest) =
        processEvents idx (processEvent idx st e) rest := rfl
    rw [hstep]
    cases e with
    | content s =>
      have hlt : idx.toNat < st.messages.length := List.get?_eq_some.mp hmsg |>.1
      have hset : updateAssistant st.messages idx (st.fullResponse ++ s) =
          st.messages.set idx.toNat
            ⟨Role.assistant, st.fullResponse ++ s, []⟩ := by
        unfold updateAssistant
        rw [hmsg]
        show (if 0 ≤ idx ∧ Role.assistant = Role.assistant then
            st.messages.set idx.toNat
              ⟨Role.assistant, st.fullResponse ++ s, []⟩
          else st.messages) =
          st.messages.set idx.toNat ⟨Role.assistant, st.fullResponse ++ s, []⟩
        rw [if_pos ⟨hpos, rfl⟩]
      have hpe : processEvent idx st (.content s) =
          ⟨st.messages.set idx.toNat ⟨Role.assistant, st.fullResponse ++ s, []⟩,
            st.fullResponse ++ s, st.quotationId⟩ := by
        simp only [processEvent, hset]
      have hmsg2 :
          (StreamState.mk
            (st.messages.set idx.toNat
              ⟨Role.assistant, st.fullResponse ++ s, []⟩)
            (st.fullResponse ++ s) st.quotationId).messages.get? idx.toNat =
          some ⟨Role.assistant, st.fullResponse ++ s, []⟩ := by
        rw [List.get?_eq_getElem?]
        exact List.getElem?_set_self (by simpa using hlt)
      have hrec := ih
        ⟨st.messages.set idx.toNat ⟨Role.assistant, st.fullResponse ++ s, []⟩,
          st.fullResponse ++ s, st.quotationId⟩ hmsg2
      rw [hpe, hrec]
      show some (Message.mk Role.assistant
          ((st.fullResponse ++ s) ++ concatContents rest) []) =
        some (Message.mk Role.assistant
          (st.fullResponse ++ (s ++ concatContents rest)) [])
      rw [str_append_assoc]
    | done qid =>
      cases qid with
      | some q =>
        have := ih { st with quotationId := some q } (by simpa using hmsg)
        simpa [processEvent, concatContents] using this
      | none =>
        have := ih st hmsg
        simpa [processEvent, concatContents] using this
    | error m =>
      have := ih st hmsg
      simpa [processEvent, concatContents] using this
    | parseFailure =>
      have := ih st hmsg
      simpa [processEvent, concatContents] using this

/-- C2: after the stream ends, the assistant placeholder appended at dispatch
start holds exactly the concatenation, in arrival order, of the content fields
of all content events of the dispatch: no reordering, no gaps, no
duplication. -/
theorem c2_stream_concat (msgs : List Message) (q0 : Option String)
    (events : List SSEvent) :
    (processEvents (startStreaming msgs).2
        ⟨(startStreaming msgs).1, "", q0⟩ events).messages.get? msgs.length =
      some ⟨Role.assistant, concatContents events, []⟩ := by
  have h0 : ((startStreaming msgs).1 : List Message).get? msgs.length =
      some ⟨Role.assistant, "", []⟩ := by
    simp [startStreaming, List.get?_eq_getElem?, List.getElem?_concat_length]
  have := processEvents_inv events ⟨(startStreaming msgs).1, "", q0⟩
    (startStreaming msgs).2 (by simp [startStreaming]) (by simpa using h0)
  simpa [startStreaming, str_empty_append] using this

/-- C3: the code's observed behaviour at the failing input. A terminal
error event is swallowed by the inner catch (line 238): the state is
unchanged, no assistant error bubble is appended, and the read loop keeps
consuming later events. -/
theorem c3_error_event_swallowed :
    processEvents 0 ⟨[⟨Role.assistant, "", []⟩], "", none⟩
        [SSEvent.content "Hel", SSEvent.error "boom", SSEvent.content "lo"] =
      ⟨[⟨Role.assistant, "Hello", []⟩], "Hello", none⟩ := by
  decide

lemma updateAssistant_get?_ne (prev : List Message) (idx : Int) (full : String)
    (j : Nat) (hj : Int.ofNat j ≠ idx) :
    (updateAssistant prev idx full).get? j = prev.get? j := by
  unfold updateAssistant
  cases hget : prev.get? idx.toNat with
  | none => rfl
  | some m =>
    show (if 0 ≤ idx ∧ m.role = Role.assistant then
        prev.set idx.toNat ⟨m.role, full, m.attachments⟩ else prev).get? j =
      prev.get? j
    by_cases hc : 0 ≤ idx ∧ m.role = Role.assistant
    · rw [if_pos hc]
      have h0 : 0 ≤ idx := hc.1
      have hj2 : (j : Int) ≠ idx := hj
      have hne : idx.toNat ≠ j := by omega
      rw [List.get?_eq_getElem?, List.get?_eq_getElem?]
      exact List.getElem?_set_ne hne
    · rw [if_neg hc]

/-- C9: processing a streaming event leaves every message other than the
recorded assistant placeholder index unchanged. -/
theorem c9_frame (idx : Int) (st : StreamState) (e : SSEvent) (j : Nat)
    (hj : Int.ofNat j ≠ idx) :
    (processEvent idx st e).messages.get? j = st.messages.get? j := by
  cases e with
  | content s =>
    show (updateAssistant st.messages idx (st.fullResponse ++ s)).get? j =
      st.messages.get? j
    exact updateAssistant_get?_ne st.messages idx (st.fullResponse ++ s) j hj
  | done qid =>
    cases qid <;> rfl
  | error m => rfl
  | parseFailure => rfl

/-- C9 witness: a content event at recorded index 0 leaves the message at
index 1 unchanged. -/
theorem c9_witness :
    (processEvent 0 ⟨[⟨Role.assistant, "", []⟩, ⟨Role.user, "hi", []⟩], "", none⟩
        (SSEvent.content "x")).messages.get? 1 =
      (([⟨Role.assistant, "", []⟩, ⟨Role.user, "hi", []⟩] : List Message)).get? 1 :=
  c9_frame 0 ⟨[⟨Role.assistant, "", []⟩, ⟨Role.user, "hi", []⟩], "", none⟩
    (SSEvent.content "x") 1 (by decide)

/- ------------------------------------------------------------------
   Session initialization and New Chat,
   src/frontend/components/ChatInterface.tsx lines 42-69.
   ------------------------------------------------------------------ -/

/-- Browser-local storage keys touched by ChatInterface:
chat_session_id, quotation_id, chat_messages. -/
structure LocalStorage where
  chatSessionId : Option String
  storedQuotationId : Option String
  chatMessages : Option String
deriving DecidableEq, BEq, Repr

/-- Initial greeting message, ChatInterface.tsx line 30. -/
def greeting : String :=
  "Hello! I am your AI Construction Consultant. How can I help you regarding your project cost or quotation?"

/-- Page-load session initialization, ChatInterface.tsx lines 48-58: a fresh
session id is generated and stored, and quotationId is reset to none; the
quotation_id key in local storage is deliberately not read. -/
def initSession (newId : String) (st : ChatState) (ls : LocalStorage) :
    ChatState × LocalStorage :=
  ({ st with sessionId := some newId, quotationId := none },
   { ls with chatSessionId := some newId })

/-- New Chat handler, ChatInterface.tsx lines 61-69: fresh session id, the
greeting as the only message, quotationId reset to none, and the quotation_id
and chat_messages keys removed from local storage. -/
def handleNewChat (newId : String) (st : ChatState) (ls : LocalStorage) :
    ChatState × LocalStorage :=
  ({ st with
      sessionId := some newId
      messages := [⟨Role.assistant, greeting, []⟩]
      quotationId := none },
   { ls with
      chatSessionId := some newId
      storedQuotationId := none
      chatMessages := none })

/-- C5: both page load and New Chat leave the component with quotationId
reset to none, and the resulting component state is independent of whatever
local storage held — a stored quotation_id from an earlier session is never
read back. -/
theorem c5_fresh_session (newId : String) (st : ChatState)
    (ls ls2 : LocalStorage) :
    ((initSession newId st ls).1.quotationId = none ∧
      (handleNewChat newId st ls).1.quotationId = none) ∧
    ((initSession newId st ls).1 = (initSession newId st ls2).1 ∧
      (handleNewChat newId st ls).1 = (handleNewChat newId st ls2).1) ∧
    (handleNewChat newId st ls).2.storedQuotationId = none := by
  exact ⟨⟨rfl, rfl⟩, ⟨rfl, rfl⟩, rfl⟩

/- ------------------------------------------------------------------
   Download gating:
   src/frontend/app/quotations/[id]/page.tsx lines 288-299 and
   src/frontend/components/ChatInterface.tsx lines 287-298, with
   src/frontend/components/DownloadButtons.tsx lines 12-45.
   ------------------------------------------------------------------ -/

/-- Quotation lifecycle statuses, from the status enum of the repository
(pending/processing/data_collection/cost_calculation/completed/failed). -/
inductive QStatus
  | pending
  | processing
  | data_collection
  | cost_calculation
  | completed
  | failed
deriving DecidableEq, Repr, Fintype

/-- Rendering condition of the download section on the quotation status page,
page.tsx line 288: `status?.status === 'completed'`. -/
def quotationPageShowsDownload (status : Option QStatus) : Bool :=
  status == some QStatus.completed

/-- Rendering condition of the quotation banner holding DownloadButtons in the
chat interface, ChatInterface.tsx line 288: `quotationId && (...)` — the
quotation's status is not consulted. -/
def chatShowsDownloadBanner (quotationId : Option String) : Bool :=
  quotationId.isSome

/-- Guard of handleDownload in DownloadButtons.tsx line 17: the request
proceeds unless the component is disabled or a download is in flight; the
chat banner passes no `disabled` prop (default false). -/
def handleDownloadProceeds (disabled : Bool) (downloading : Option String) :
    Bool :=
  !(disabled || downloading.isSome)

/-- C7 counterexample: the chat banner offers DownloadButtons for a quotation
id whose quotation is still pending, and clicking issues the request. -/
theorem c7_counterexample :
    chatShowsDownloadBanner (some "quot-1") = true ∧
    handleDownloadProceeds false none = true ∧
    QStatus.pending ≠ QStatus.completed := by
  refine ⟨rfl, rfl, ?_⟩
  decide

/-- C7 amended: the quotation status page renders the download section exactly
when the status is completed, while the chat interface banner renders
DownloadButtons exactly when a quotation id is present, independently of the
quotation's status. -/
theorem c7_download_gating (s : Option QStatus) (qid : Option String) :
    (quotationPageShowsDownload s = true ↔ s = some QStatus.completed) ∧
    (chatShowsDownloadBanner qid = true ↔ qid ≠ none) := by
  constructor
  · cases s with
    | none => decide
    | some v => cases v <;> decide
  · cases qid <;> simp [chatShowsDownloadBanner]

/-- C7 witness: concrete evaluations through the amended theorem. -/
theorem c7_witness : quotationPageShowsDownload (some QStatus.completed) = true :=
  (c7_download_gating (some QStatus.completed) none).1.mpr rfl

/- ------------------------------------------------------------------
   Quotation state machine for claim C1. The backend implementing it is not
   part of the visible sources; it is modelled from the specification.
   ------------------------------------------------------------------ -/

/-- State-machine operations of spec section 4.1: begin_processing,
record_extraction, record_pricing, mark_failed. -/
inductive QOp
  | begin_processing
  | record_extraction
  | record_pricing
  | mark_failed
deriving DecidableEq, Repr, Fintype

/-- Modelled from the spec: the status path written by one state-machine
operation (spec section 4.1), for the backend quotation state machine whose
code is not among the visible sources. `begin_processing` moves pending to
processing and fails elsewhere; `record_extraction` moves processing to
data_collection and fails if the quotation is already past that stage,
terminal, or still pending (no transition may be skipped);
`record_pricing` moves data_collection to cost_calculation and then to
completed, with the same failure policy; `mark_failed` is callable from any
non-terminal state (which includes pending), is idempotent on failed, and
fails on completed. An empty path means the operation raises and the status
is unchanged. -/
def opPath : QOp → QStatus → List QStatus
  | .begin_processing, .pending => [.processing]
  | .begin_processing, _ => []
  | .record_extraction, .processing => [.data_collection]
  | .record_extraction, _ => []
  | .record_pricing, .data_collection => [.cost_calculation, .completed]
  | .record_pricing, _ => []
  | .mark_failed, .pending => [.failed]
  | .mark_failed, .processing => [.failed]
  | .mark_failed, .data_collection => [.failed]
  | .mark_failed, .cost_calculation => [.failed]
  | .mark_failed, _ => []

/-- Final status after one operation. -/
def applyOp (s : QStatus) (op : QOp) : QStatus :=
  (opPath op s).getLast?.getD s

/-- The directed edges traversed by one operation. -/
def opEdges (s : QStatus) (op : QOp) : List (QStatus × QStatus) :=
  match opPath op s with
  | [] => []
  | [a] => [(s, a)]
  | [a, b] => [(s, a), (a, b)]
  | _ => []

/-- All edges traversed by a sequence of operations run from a status. -/
def runEdges : QStatus → List QOp → List (QStatus × QStatus)
  | _, [] => []
  | s, op :: ops => opEdges s op ++ runEdges (applyOp s op) ops

/-- The edge set asserted by the claim (spec sections 4.1 and 8). -/
def claimEdges : List (QStatus × QStatus) :=
  [(.pending, .processing), (.processing, .data_collection),
   (.processing, .failed), (.data_collection, .cost_calculation),
   (.data_collection, .failed), (.cost_calculation, .completed),
   (.cost_calculation, .failed)]

/-- The claimed edges together with pending to failed, which mark_failed
produces since it is callable from any non-terminal state. -/
def amendedEdges : List (QStatus × QStatus) :=
  claimEdges ++ [(.pending, .failed)]

lemma opEdges_sub : ∀ (s : QStatus) (op : QOp) (e : QStatus × QStatus),
    e ∈ opEdges s op → e ∈ amendedEdges := by
  decide

lemma opEdges_terminal : ∀ op : QOp,
    opEdges QStatus.completed op = [] ∧ opEdges QStatus.failed op = [] := by
  decide

lemma applyOp_terminal : ∀ op : QOp,
    applyOp QStatus.completed op = QStatus.completed ∧
    applyOp QStatus.failed op = QStatus.failed := by
  decide

/-- C1 counterexample: running mark_failed on a pending quotation traverses
the edge pending to failed, which is outside the claimed edge set. -/
theorem c1_counterexample :
    (QStatus.pending, QStatus.failed) ∈
      runEdges QStatus.pending [QOp.mark_failed] ∧
    (QStatus.pending, QStatus.failed) ∉ claimEdges := by
  decide

/-- C1 amended: every sequence of state-machine operations changes the status
only along the claimed edges together with pending to failed, and no operation
changes the status of a quotation already completed or failed. -/
theorem c1_transition_edges (s : QStatus) (ops : List QOp)
    (e : QStatus × QStatus) :
    (e ∈ runEdges s ops → e ∈ amendedEdges) ∧
    ((s = QStatus.completed ∨ s = QStatus.failed) → runEdges s ops = []) := by
  induction ops generalizing s with
  | nil =>
    refine ⟨?_, ?_⟩
    · intro h
      simp [runEdges] at h
    · intro _
      rfl
  | cons op ops ih =>
    refine ⟨?_, ?_⟩
    · intro h
      simp only [runEdges, List.mem_append] at h
      rcases h with h | h
      · exact opEdges_sub s op e h
      · exact (ih (applyOp s op)).1 h
    · intro hterm
      have h1 : opEdges s op = [] := by
        rcases hterm with h | h <;> subst h
        · exact (opEdges_terminal op).1
        · exact (opEdges_terminal op).2
      have h2 : applyOp s op = s := by
        rcases hterm with h | h <;> subst h
        · exact (applyOp_terminal op).1
        · exact (applyOp_terminal op).2
      show opEdges s op ++ runEdges (applyOp s op) ops = []
      rw [h1, h2, List.nil_append]
      exact (ih s).2 hterm

/-- C1 witness: concrete evaluations through the amended theorem. -/
theorem c1_witness :
    (QStatus.pending, QStatus.processing) ∈ amendedEdges ∧
    runEdges QStatus.completed [QOp.mark_failed] = [] :=
  ⟨(c1_transition_edges QStatus.pending [QOp.begin_processing]
      (QStatus.pending, QStatus.processing)).1 (by decide),
   (c1_transition_edges QStatus.completed [QOp.mark_failed]
      (QStatus.pending, QStatus.processing)).2 (Or.inl rfl)⟩

end AIAgent
